import Mathlib

/-!
Verification development for the ModbusTools Project Builder / Document
Mapping and Import-Merge Engine (sources: `src/core/gui/core_ui.cpp`,
`src/client/project/client_builder.cpp`).

The C++ code is shallowly embedded: Qt `QVariant` values become `MBVariant`,
`MBSETTINGS` (a `QMap<QString,QVariant>`) becomes an association list with
`QMap`-style accessors, and the stateful import loop of
`mbCoreUi::menuSlotFileImportProject` becomes an explicit fold over
an import state.  Entities carry an `id` tag modelling C++ object identity
(pointer identity), which lets us state that merge-Replace keeps the same
object instance.
-/

/-- Loosely-typed value, modelling Qt's `QVariant` as used by the settings
dictionaries (`MBSETTINGS`).  `nullV` is the default-constructed (invalid)
`QVariant`, which is what `QMap::value` returns for an absent key. -/
inductive MBVariant where
  | nullV : MBVariant
  | intV  : Int → MBVariant
  | strV  : String → MBVariant
deriving DecidableEq, Repr

/-- `QVariant::toString`: null converts to the empty string. -/
def MBVariant.toStr : MBVariant → String
  | .nullV  => ""
  | .intV n => toString n
  | .strV s => s

/-- `QVariant::toInt`: null converts to `0`; a string parses or yields `0`. -/
def MBVariant.toInt : MBVariant → Int
  | .nullV  => 0
  | .intV n => n
  | .strV s => (s.toInt?).getD 0

/-- The settings dictionary `MBSETTINGS = QMap<QString, QVariant>`,
modelled as an association list from keys to variants. -/
def MBSETTINGS : Type := List (String × MBVariant)

instance : DecidableEq MBSETTINGS := by
  unfold MBSETTINGS; infer_instance

instance : Repr MBSETTINGS := by
  unfold MBSETTINGS; infer_instance

/-- `QMap::value(key)`: the stored value, or a default-constructed
(null) `QVariant` when the key is absent. -/
def MBSETTINGS.value (s : MBSETTINGS) (k : String) : MBVariant :=
  match s.find? (fun p => p.1 = k) with
  | some p => p.2
  | none   => .nullV

/-- `QMap::contains(key)`. -/
def MBSETTINGS.containsKey (s : MBSETTINGS) (k : String) : Bool :=
  (s.find? (fun p => p.1 = k)).isSome

/-- `QMap::insert(key, value)`: overwrite an existing entry or append. -/
def MBSETTINGS.insertKey (s : MBSETTINGS) (k : String) (v : MBVariant) : MBSETTINGS :=
  match s with
  | [] => [(k, v)]
  | p :: rest =>
      if p.1 = k then (k, v) :: rest
      else p :: MBSETTINGS.insertKey rest k v

/-- A live Domain Model entity (`mbCoreDevice` / `mbCorePort` /
`mbCoreDataView`).  `id` models C++ object identity (the pointer): it is
never changed by any transcription, only fresh entities get fresh ids.
`settings` stands for the entity's transcribed content (all fields copied
by the Builder's `fillX`). -/
structure Entity where
  id : Nat
  name : String
  settings : MBSETTINGS
deriving DecidableEq, Repr

/-- A Document Model node (`mbCoreDomDevice` / `mbCoreDomPort` /
`mbCoreDomDataView`): name plus settings content, no identity. -/
structure DomEntity where
  name : String
  settings : MBSETTINGS
deriving DecidableEq, Repr

/-- The Document Model project node (`mbCoreDomProject`): the project's
own settings dictionary (carrying e.g. its `name`) plus child node lists
for the three entity kinds. -/
structure DomProject where
  settings : MBSETTINGS
  devices : List DomEntity
  ports : List DomEntity
  dataViews : List DomEntity
deriving DecidableEq, Repr

def namesOf (es : List Entity) : List String := es.map (·.name)

/-- `mbCoreProject::hasDevice` / `hasPort` / `hasDataView`: is some entity
of this kind already called `n`? -/
def hasName (es : List Entity) (n : String) : Bool :=
  es.any (fun e => e.name = n)

/-- Length of the longest name among `es` (0 when empty). -/
def maxNameLen (es : List Entity) : Nat :=
  es.foldr (fun e acc => max e.name.length acc) 0

/-- Modelled from the spec: the fresh-name scheme used by the project's
add operations (`mbCoreProject::deviceAdd` etc., not under `src/`).  The
spec fixes only that the assigned name does not collide (§3 uniqueness
invariant, §4.4 Rename: the incoming entity is given a non-colliding
name); the concrete scheme here pads the base name until it is strictly
longer than every existing name, hence fresh. -/
def freeName (es : List Entity) (base : String) : String :=
  base ++ String.mk (List.replicate (maxNameLen es + 1 - base.length) '_')

/-- Modelled from the spec: `mbCoreProject::deviceAdd` / `portAdd` /
`dataViewAdd` (not under `src/`).  Per the spec's uniqueness invariant
(§3) and Rename contract (§4.4), adding an entity whose name is empty or
already taken assigns it a fresh non-colliding name; the entity is
appended to the owning collection. -/
def entityAdd (es : List Entity) (e : Entity) : List Entity :=
  if e.name = "" || hasName es e.name then
    es ++ [{ e with name := freeName es e.name }]
  else
    es ++ [e]

/-- `mbCoreBuilder::fillDevice` / `fillPort` / `fillDataView` on an
existing entity: every recognized field — the name and the content — is
copied from the document node; the object identity (`id`) is untouched. -/
def fillEntity (e : Entity) (d : DomEntity) : Entity :=
  { e with name := d.name, settings := d.settings }

/-- `mbCoreBuilder::toDevice` / `toPort` / `toDataView`: a freshly
constructed entity (`newX`) filled from the document node. -/
def toEntity (nextId : Nat) (d : DomEntity) : Entity :=
  { id := nextId, name := d.name, settings := d.settings }

/-- Replace-in-place: `builder->fillDevice(m_project->deviceCore(d->name()), d)`.
The entity whose name matches is overwritten from the document node; all
others are untouched; nothing is inserted or removed. -/
def replaceExisting (es : List Entity) (d : DomEntity) : List Entity :=
  es.map (fun e => if e.name = d.name then fillEntity e d else e)

/-- The live project (`mbCoreProject`): owned entity collections plus the
modified flag. -/
structure Project where
  name : String
  devices : List Entity
  ports : List Entity
  dataViews : List Entity
  modified : Bool
deriving DecidableEq, Repr

/-- Uniqueness invariant (spec §3): no two entities of one kind share a
name. -/
def uniqueNames (es : List Entity) : Prop := (namesOf es).Nodup

instance (es : List Entity) : Decidable (uniqueNames es) := by
  unfold uniqueNames; infer_instance

/-- Outcome vocabulary of the conflict-resolution prompt
(`mbCoreDialogReplace`).  `cancel` models every return value `r <= 0` of
`m_dialogs->replace` (the code comments call that case "Cancel is
clicked"). -/
inductive Resolution where
  | replaceAll | replace | renameAll | rename | skipAll | skip | cancel
deriving DecidableEq, Repr

/-- The three "apply to all remaining collisions of this kind" answers. -/
def Resolution.isAll : Resolution → Bool
  | .replaceAll | .renameAll | .skipAll => true
  | _ => false

/-- State threaded through one entity kind's pass of
`mbCoreUi::menuSlotFileImportProject`:
the project's entity list for this kind, the id supply for fresh
entities, the global prompt cursor (`promptIdx`) into the collaborator's
answer stream, the number of prompts consulted during this kind
(`promptCount`), the `applyToAll` memo (`none` models `applyToAll = -1`),
and whether Cancel has aborted the import. -/
structure KindSt where
  entities : List Entity
  nextId : Nat
  promptIdx : Nat
  promptCount : Nat
  memo : Option Resolution
  cancelled : Bool
deriving DecidableEq, Repr

/-- The `switch (r)` body of the import loop.  `replaceAll` / `renameAll`
/ `skipAll` first store themselves into the memo and then fall through to
the corresponding single-shot action; `skip` and any other value fall to
`default: continue` (no change).  A `cancel` can never be dispatched here
from the memo (the memo is only ever set to an All variant) and the
prompt's `cancel` is intercepted before dispatch; the `cancel` case is
the unreachable `default` branch of the `switch`. -/
def applyResolution (st : KindSt) (d : DomEntity) : Resolution → KindSt
  | .replaceAll =>
      { st with memo := some .replaceAll,
                entities := replaceExisting st.entities d }
  | .replace =>
      { st with entities := replaceExisting st.entities d }
  | .renameAll =>
      { st with memo := some .renameAll,
                entities := entityAdd st.entities (toEntity st.nextId d),
                nextId := st.nextId + 1 }
  | .rename =>
      { st with entities := entityAdd st.entities (toEntity st.nextId d),
                nextId := st.nextId + 1 }
  | .skipAll =>
      { st with memo := some .skipAll }
  | .skip => st
  | .cancel => st

/-- One iteration of the per-kind `Q_FOREACH` loop of
`menuSlotFileImportProject`.  A cancelled import processes nothing
further (in C++ the whole function has already returned).  On a
collision, the memo is consulted; only when it is unset is the
collaborator prompted, and a `cancel` answer (`r <= 0`) aborts
the import.  Without a collision the incoming entity is materialized and
added unconditionally. -/
def importStep (prompt : Nat → Resolution) (st : KindSt) (d : DomEntity) : KindSt :=
  if st.cancelled then st
  else if hasName st.entities d.name then
    match st.memo with
    | none =>
        let r := prompt st.promptIdx
        let st' := { st with promptIdx := st.promptIdx + 1,
                             promptCount := st.promptCount + 1 }
        if r = .cancel then { st' with cancelled := true }
        else applyResolution st' d r
    | some r => applyResolution st d r
  else
    { st with entities := entityAdd st.entities (toEntity st.nextId d),
              nextId := st.nextId + 1 }

/-- One entity kind's full pass: fold the incoming document nodes of that
kind through `importStep`, starting with a reset memo
(`applyToAll = -1`) and prompt count. -/
def importKind (prompt : Nat → Resolution) (ds : List DomEntity)
    (entities : List Entity) (nextId promptIdx : Nat) : KindSt :=
  ds.foldl (importStep prompt)
    { entities := entities, nextId := nextId, promptIdx := promptIdx,
      promptCount := 0, memo := none, cancelled := false }

/-- Result of one whole import (`menuSlotFileImportProject` after a
successful `loadXml`): the mutated project, the id supply, how many times
the prompt was consulted per kind, whether Cancel aborted the import, and
whether the final `importDomProject` family pass ran. -/
structure ImportResult where
  project : Project
  nextId : Nat
  devicePromptCount : Nat
  portPromptCount : Nat
  dataViewPromptCount : Nat
  cancelled : Bool
  finalPassRun : Bool
deriving Repr

/-- The import-merge engine of `mbCoreUi::menuSlotFileImportProject`
(lines 473–622): devices first, then ports, then data views, each kind
with its own `applyToAll` memo; a Cancel returns immediately, leaving
already-applied changes in place and skipping both the final
`importDomProject` pass and `setModifiedFlag(true)`. -/
def importProject (prompt : Nat → Resolution) (pr : Project) (nextId : Nat)
    (dom : DomProject) : ImportResult :=
  let stD := importKind prompt dom.devices pr.devices nextId 0
  if stD.cancelled then
    { project := { pr with devices := stD.entities },
      nextId := stD.nextId,
      devicePromptCount := stD.promptCount,
      portPromptCount := 0, dataViewPromptCount := 0,
      cancelled := true, finalPassRun := false }
  else
    let stP := importKind prompt dom.ports pr.ports stD.nextId stD.promptIdx
    if stP.cancelled then
      { project := { pr with devices := stD.entities, ports := stP.entities },
        nextId := stP.nextId,
        devicePromptCount := stD.promptCount,
        portPromptCount := stP.promptCount, dataViewPromptCount := 0,
        cancelled := true, finalPassRun := false }
    else
      let stV := importKind prompt dom.dataViews pr.dataViews stP.nextId stP.promptIdx
      if stV.cancelled then
        { project := { pr with devices := stD.entities, ports := stP.entities,
                               dataViews := stV.entities },
          nextId := stV.nextId,
          devicePromptCount := stD.promptCount,
          portPromptCount := stP.promptCount,
          dataViewPromptCount := stV.promptCount,
          cancelled := true, finalPassRun := false }
      else
        { project := { pr with devices := stD.entities, ports := stP.entities,
                               dataViews := stV.entities, modified := true },
          nextId := stV.nextId,
          devicePromptCount := stD.promptCount,
          portPromptCount := stP.promptCount,
          dataViewPromptCount := stV.promptCount,
          cancelled := false, finalPassRun := true }

/-- The resolution that would govern the next collision: the memo when
set, otherwise the collaborator's next answer. -/
def effectiveResolution (prompt : Nat → Resolution) (st : KindSt) : Resolution :=
  match st.memo with
  | some r => r
  | none => prompt st.promptIdx

/-- A data view item (`mbCoreDataViewItem` with the client family's
extensions, `mbClientDataViewItem`): device reference, address, length,
polling period, and the client's scalar value (a `QVariant`).  `length`
stands for `length()`, the register count the item occupies, determined
by the item's applied settings. -/
structure DataViewItem where
  device : String
  address : Int
  length : Int
  period : Int
  value : MBVariant
deriving DecidableEq, Repr

/-- `mbCoreBuilder::newDataViewItem` via the client factory
(`mbClientBuilder::newDataViewItem`): a valid empty item; the value
defaults to the invalid `QVariant`. -/
def newDataViewItem : DataViewItem :=
  { device := "", address := 0, length := 1, period := 1000, value := .nullV }

/-- A `mbCoreDomDataViewItem` node: only a settings dictionary. -/
structure DomDataViewItem where
  settings : MBSETTINGS
deriving DecidableEq, Repr

/-- `mbCoreBuilder::newDomDataViewItem` via the client factory. -/
def newDomDataViewItem : DomDataViewItem := { settings := [] }

/-- Modelled from the spec: `mbCoreDataViewItem::setSettings` (with the
client item's additional `period` key; entity code is not under `src/`).
Per §4.2 every recognized key present in the dictionary is copied into
the corresponding field through that field's setter; an absent key is
skipped, leaving the field untouched (the guarded
`find != end` per-key pattern, visible in `mbCoreUi::setCachedSettings`).
The runtime `value` is not part of an item's settings — the client
Builder transcribes it separately. -/
def DataViewItem.setSettings (item : DataViewItem) (s : MBSETTINGS) : DataViewItem :=
  { device  := if s.containsKey "device" then (s.value "device").toStr else item.device,
    address := if s.containsKey "address" then (s.value "address").toInt else item.address,
    length  := if s.containsKey "length" then (s.value "length").toInt else item.length,
    period  := if s.containsKey "period" then (s.value "period").toInt else item.period,
    value   := item.value }

/-- Modelled from the spec: `mbCoreDataViewItem::settings` (with the
client's `period`; not under `src/`): the dictionary of every recognized
settings field. -/
def DataViewItem.getSettings (item : DataViewItem) : MBSETTINGS :=
  [("device", .strV item.device), ("address", .intV item.address),
   ("length", .intV item.length), ("period", .intV item.period)]

/-- Modelled from the spec: the base transcription
`mbCoreBuilder::fillDataViewItem` (not under `src/`): copy every
recognized base field from the node's settings into the entity
(`obj->setSettings(dom->settings())`). -/
def coreFillDataViewItem (obj : DataViewItem) (dom : DomDataViewItem) : DataViewItem :=
  obj.setSettings dom.settings

/-- Modelled from the spec: the base transcription
`mbCoreBuilder::fillDomDataViewItem` (not under `src/`): store the
entity's settings dictionary into the node. -/
def coreFillDomDataViewItem (dom : DomDataViewItem) (obj : DataViewItem) : DomDataViewItem :=
  { dom with settings := obj.getSettings }

/-- `mbClientBuilder::fillDataViewItem` (client_builder.cpp:122–127):
base fill first, then `obj->setValue(dom->settings().value("value"))` —
unconditionally, with the map's null default when the key is absent.
`setValue` (entity code not under `src/`) is a plain field setter. -/
def fillDataViewItem (obj : DataViewItem) (dom : DomDataViewItem) : DataViewItem :=
  let obj := coreFillDataViewItem obj dom
  { obj with value := dom.settings.value "value" }

/-- `mbClientBuilder::fillDomDataViewItem` (client_builder.cpp:129–135):
base fill first, then `s["value"] = obj->value(); dom->setSettings(s)`. -/
def fillDomDataViewItem (dom : DomDataViewItem) (obj : DataViewItem) : DomDataViewItem :=
  let dom := coreFillDomDataViewItem dom obj
  { dom with settings := dom.settings.insertKey "value" obj.value }

/-- The settings payload the New/Edit Item dialog returns, as consumed by
the creation loop: the requested address and whatever determines the
item's resulting length.  `item->setSettings(p)` applies it. -/
structure ItemSettings where
  address : Int
  length : Int
deriving DecidableEq, Repr

/-- Applying a dialog payload to an item
(`item->setSettings(p)` in the batch loops). -/
def applyItemSettings (item : DataViewItem) (p : ItemSettings) : DataViewItem :=
  { item with address := p.address, length := p.length }

/-- The creation loop of `mbCoreUi::menuSlotDataViewItemNew`
(core_ui.cpp:785–791): `count` times, build a fresh item, apply the
dialog settings `p`, append the item, then recompute the offered address
`p[address] = item->addressInt() + item->length()` from the item's
actually applied fields. -/
def createItemsLoop : Nat → ItemSettings → List DataViewItem → List DataViewItem × ItemSettings
  | 0, p, acc => (acc, p)
  | Nat.succ n, p, acc =>
      let item := applyItemSettings newDataViewItem p
      createItemsLoop n { p with address := item.address + item.length } (acc ++ [item])

/-- The edit loop of `mbCoreUi::menuSlotDataViewItemEdit`
(core_ui.cpp:810–816): apply the dialog settings to each selected item in
turn, recomputing the offered address after each item's settings are
applied. -/
def editItemsLoop (p : ItemSettings) : List DataViewItem → List DataViewItem × ItemSettings
  | [] => ([], p)
  | item :: rest =>
      let item' := applyItemSettings item p
      let res := editItemsLoop { p with address := item'.address + item'.length } rest
      (item' :: res.1, res.2)

/-- The presentation-layer state consulted by the menu entry points:
the runtime-running flag (`m_core->isRunning()`), the open project
(`m_project`, possibly absent), the id supply for freshly constructed
entities, and the item list of the data view currently active in the
data-view manager (`m_dataViewManager->activeDataViewCore()`), when
one is active. -/
structure UiState where
  running : Bool
  project : Option Project
  nextId : Nat
  activeItems : Option (List DataViewItem)
deriving Repr

/-- `mbCoreUi::menuSlotFileNew` (core_ui.cpp:365–377): refused while the
runtime is running; otherwise, if the project dialog returns a non-empty
settings payload (here: the new project's name), a fresh project with the
modified flag set replaces the current one. -/
def menuSlotFileNew (st : UiState) (dialogResult : Option String) : UiState :=
  if st.running then st
  else
    match dialogResult with
    | none => st
    | some nm =>
        { st with project := some { name := nm, devices := [], ports := [],
                                    dataViews := [], modified := true } }

/-- `mbCoreUi::menuSlotFileImportProject` (core_ui.cpp:457–625): refused
while running; with an open project and a successfully parsed document
(`loadResult`), run the import-merge engine. -/
def menuSlotFileImportProject (st : UiState) (loadResult : Option DomProject)
    (prompt : Nat → Resolution) : UiState × Option ImportResult :=
  if st.running then (st, none)
  else
    match st.project, loadResult with
    | some pr, some dom =>
        let res := importProject prompt pr st.nextId dom
        ({ st with project := some res.project, nextId := res.nextId }, some res)
    | _, _ => (st, none)

/-- `mbCoreUi::menuSlotPortImport` (core_ui.cpp:707–725): refused while
running; needs a project; a successfully imported port is added and the
modified flag set. -/
def menuSlotPortImport (st : UiState) (loaded : Option DomEntity) : UiState :=
  if st.running then st
  else
    match st.project, loaded with
    | some pr, some d =>
        { st with project := some { pr with
                    ports := entityAdd pr.ports (toEntity st.nextId d),
                    modified := true },
                  nextId := st.nextId + 1 }
    | _, _ => st

/-- `mbCoreUi::menuSlotDataViewNew` (core_ui.cpp:914–926): needs a
project; if the dialog returns a non-empty settings payload, a fresh
data view with those settings is added and the modified flag set.
Note: unlike the file- and port-level slots, this entry point does not
consult `m_core->isRunning()`. -/
def menuSlotDataViewNew (st : UiState) (dialogResult : Option MBSETTINGS) : UiState :=
  match st.project with
  | none => st
  | some pr =>
      match dialogResult with
      | none => st
      | some s =>
          let wl : Entity := { id := st.nextId, name := (s.value "name").toStr,
                               settings := s }
          { st with project := some { pr with
                      dataViews := entityAdd pr.dataViews wl,
                      modified := true },
                    nextId := st.nextId + 1 }

/-- `mbCoreUi::menuSlotDataViewInsert` (core_ui.cpp:942–949): needs a
project; a fresh data view is added unconditionally and the modified
flag set.  No `isRunning` guard. -/
def menuSlotDataViewInsert (st : UiState) : UiState :=
  match st.project with
  | none => st
  | some pr =>
      let wl : Entity := { id := st.nextId, name := "", settings := [] }
      { st with project := some { pr with
                  dataViews := entityAdd pr.dataViews wl,
                  modified := true },
                nextId := st.nextId + 1 }

/-- `mbCoreUi::menuSlotDataViewItemNew` (core_ui.cpp:760–795), restricted
to the case of an active data view and an open project: if the dialog
returns a payload with `count > 0`, run the creation loop and set the
modified flag.  No `isRunning` guard. -/
def menuSlotDataViewItemNew (st : UiState)
    (dialogResult : Option (ItemSettings × Nat)) : UiState :=
  match st.project, st.activeItems, dialogResult with
  | some pr, some items, some (p, count) =>
      if count > 0 then
        let (newItems, _) := createItemsLoop count p []
        { st with activeItems := some (items ++ newItems),
                  project := some { pr with modified := true } }
      else st
  | _, _, _ => st

/-- `mbCoreUi::menuSlotFileOpen` (core_ui.cpp:379–393): refused while
running; with a file chosen, the current project is closed and the
loaded one (absent on parse failure) becomes current. -/
def menuSlotFileOpen (st : UiState) (file : Option String)
    (loaded : Option Project) : UiState :=
  if st.running then st
  else
    match file with
    | none => st
    | some _ =>
        match loaded with
        | some p => { st with project := some p }
        | none => { st with project := none }

/-- `mbCoreUi::menuSlotFileClose` (core_ui.cpp:395–404): refused while
running; unless the save-question dialog answers Cancel
(`dialogCancel`), the project is closed. -/
def menuSlotFileClose (st : UiState) (dialogCancel : Bool) : UiState :=
  if st.running then st
  else if dialogCancel then st
  else { st with project := none }

/-- `mbCoreUi::menuSlotFileEdit` (core_ui.cpp:439–455): refused while
running; with a project open and a non-empty dialog payload (here: the
project's new name), the settings are applied and the modified flag
set. -/
def menuSlotFileEdit (st : UiState) (dialogResult : Option String) : UiState :=
  if st.running then st
  else
    match st.project, dialogResult with
    | some pr, some nm =>
        { st with project := some { pr with name := nm, modified := true } }
    | _, _ => st

/-- `mbCoreUi::menuSlotDataViewDelete` (core_ui.cpp:951–961): needs a
project and an active data view; the active view is removed (by object
identity) and deleted, and the modified flag set.  No `isRunning`
guard. -/
def menuSlotDataViewDelete (st : UiState) (active : Option Entity) : UiState :=
  match st.project, active with
  | some pr, some d =>
      { st with project := some { pr with
                  dataViews := pr.dataViews.filter (fun e => e.id ≠ d.id),
                  modified := true } }
  | _, _ => st

/-- `mbCoreUi::menuSlotDataViewImport` (core_ui.cpp:963–979): needs a
project; a successfully imported data view (built from the parsed node;
absent on failure) is added and the modified flag set.  No `isRunning`
guard. -/
def menuSlotDataViewImport (st : UiState) (loaded : Option DomEntity) : UiState :=
  match st.project, loaded with
  | some pr, some d =>
      { st with project := some { pr with
                  dataViews := entityAdd pr.dataViews (toEntity st.nextId d),
                  modified := true },
                nextId := st.nextId + 1 }
  | _, _ => st

/-- Modelled from the spec: `mbCoreBuilder::newDataViewItem(prev)` (not
under `src/`): a fresh item initialized from the preceding item, its
address defaulting to `prev.address + prev.length` (§4.3: the offered
address is a pure function of the immediately preceding item). -/
def newDataViewItemFrom (prev : DataViewItem) : DataViewItem :=
  { prev with address := prev.address + prev.length }

/-- `mbCoreUi::menuSlotDataViewItemInsert` (core_ui.cpp:821–850): needs
an active data view; the preceding item (the one before the current
index, or the last item when the index is past the end) seeds the new
item; with no preceding item a fresh item referencing the project's
first device is used; the item is inserted at the current index and the
modified flag set.  No `isRunning` guard. -/
def menuSlotDataViewItemInsert (st : UiState) (index : Nat) : UiState :=
  match st.project, st.activeItems with
  | some pr, some items =>
      let prev : Option DataViewItem :=
        if index < items.length then
          if index = 0 then none else items[index - 1]?
        else
          items[items.length - 1]?
      let newItem : DataViewItem :=
        match prev with
        | some p => newDataViewItemFrom p
        | none =>
            { newDataViewItem with
                device := match pr.devices.head? with
                          | some e => e.name
                          | none => newDataViewItem.device }
      let k := min index items.length
      { st with activeItems := some (items.take k ++ [newItem] ++ items.drop k),
                project := some { pr with modified := true } }
  | _, _ => st

/-- `mbCoreUi::menuSlotDataViewItemDelete` (core_ui.cpp:852–869): needs
an active data view; every selected item is removed and deleted, and the
modified flag set when the selection is non-empty.  No `isRunning`
guard. -/
def menuSlotDataViewItemDelete (st : UiState) (selected : List DataViewItem) : UiState :=
  match st.project, st.activeItems with
  | some pr, some items =>
      if selected.isEmpty then st
      else
        { st with activeItems := some (items.filter (fun it => !(selected.contains it))),
                  project := some { pr with modified := true } }
  | _, _ => st

/-- `mbCoreUi::menuSlotDataViewImportItems` (core_ui.cpp:871–892): needs
an active data view; a non-empty imported item list is inserted at the
current index and the modified flag set.  No `isRunning` guard. -/
def menuSlotDataViewImportItems (st : UiState) (loaded : List DataViewItem)
    (index : Nat) : UiState :=
  match st.project, st.activeItems with
  | some pr, some items =>
      if loaded.isEmpty then st
      else
        let k := min index items.length
        { st with activeItems := some (items.take k ++ loaded ++ items.drop k),
                  project := some { pr with modified := true } }
  | _, _ => st

/-- `mbCoreBuilder::newPort` / `newDevice` / `newDataView` via the client
factory: a valid empty entity carrying a fresh identity. -/
def newEntity (nextId : Nat) : Entity := { id := nextId, name := "", settings := [] }

/-- `mbCoreBuilder::newDomPort` / `newDomDevice` / `newDomDataView` via
the client factory: an empty document node. -/
def newDomEntity : DomEntity := { name := "", settings := [] }

/-- Modelled from the spec: the base `mbCoreBuilder::fillDomPort` /
`fillDomDevice` / `fillDomDataView` (not under `src/`); per §4.2 the
inverse transcription stores every recognized entity field — the name
and the settings content — into the node. -/
def fillDomEntity (dom : DomEntity) (e : Entity) : DomEntity :=
  { dom with name := e.name, settings := e.settings }

/-- `mbCoreBuilder::newProject` via the client factory: a valid empty
project. -/
def newProject : Project :=
  { name := "", devices := [], ports := [], dataViews := [], modified := false }

/-- `mbCoreBuilder::newDomProject` via the client factory: an empty
project node. -/
def newDomProject : DomProject :=
  { settings := [], devices := [], ports := [], dataViews := [] }

/-- Child-node materialization during a project fill: each node becomes
a fresh entity with a consecutive identity. -/
def toEntities : Nat → List DomEntity → List Entity
  | _, [] => []
  | nid, d :: rest => toEntity nid d :: toEntities (nid + 1) rest

/-- Modelled from the spec: the base `mbCoreBuilder::fillDomProject`
(not under `src/`): store the project's settings (its name) into the
node and one child node per owned entity of each kind. -/
def fillDomProject (dom : DomProject) (pr : Project) : DomProject :=
  { settings := dom.settings.insertKey "name" (.strV pr.name),
    devices := pr.devices.map (fun e => ⟨e.name, e.settings⟩),
    ports := pr.ports.map (fun e => ⟨e.name, e.settings⟩),
    dataViews := pr.dataViews.map (fun e => ⟨e.name, e.settings⟩) }

/-- Modelled from the spec: the base `mbCoreBuilder::fillProject` (not
under `src/`): transcribe the project settings and materialize every
child node of every kind into a fresh entity — first materialize
everything, then a product family wires relationships (§4.2). -/
def coreFillProject (pr : Project) (dom : DomProject) (nid : Nat) : Project :=
  { pr with
      name := (dom.settings.value "name").toStr,
      devices := toEntities nid dom.devices,
      ports := toEntities (nid + dom.devices.length) dom.ports,
      dataViews := toEntities (nid + dom.devices.length + dom.ports.length) dom.dataViews }

/-- The client project (`mbClientProject`): the core project plus each
port's non-owning attached-device list (populated by
`mbClientPort::deviceAdd`), recorded as (port name, device name)
pairs. -/
structure ClientProject where
  core : Project
  attachments : List (String × String)
deriving DecidableEq, Repr

/-- `mbClientBuilder::newProject` result as a client project. -/
def newClientProject : ClientProject := { core := newProject, attachments := [] }

/-- `mbClientBuilder::fillProject` (client_builder.cpp:108–120): the
base fill first, then for each device of the built project the port
named by the device's `portName` setting is looked up; when it exists
the device is attached to it, otherwise the device stays unattached. -/
def clientFillProject (cp : ClientProject) (dom : DomProject) (nid : Nat) : ClientProject :=
  let core := coreFillProject cp.core dom nid
  { core := core,
    attachments := cp.attachments ++ core.devices.filterMap (fun dev =>
      let portName := (dev.settings.value "portName").toStr
      if hasName core.ports portName then some (portName, dev.name) else none) }

/-- The fields of an entity recognized by the mapping; the identity tag
(the C++ object pointer) is not a field. -/
def entityFields (e : Entity) : String × MBSETTINGS := (e.name, e.settings)

/-- The recognized, transcribed fields of a project: its name and the
per-kind child entity fields (the modified flag and object identities
are not part of the persisted form). -/
def projectFields (pr : Project) :
    String × List (String × MBSETTINGS) × List (String × MBSETTINGS) ×
      List (String × MBSETTINGS) :=
  (pr.name, pr.devices.map entityFields, pr.ports.map entityFields,
   pr.dataViews.map entityFields)

/-! ### Concrete fixtures used by the example scenarios and witnesses -/

/-- Three existing devices `Dev1`..`Dev3` of a project. -/
def exDevices : List Entity :=
  [⟨0, "Dev1", [("k", .intV 1)]⟩, ⟨1, "Dev2", [("k", .intV 2)]⟩,
   ⟨2, "Dev3", [("k", .intV 3)]⟩]

/-- Three incoming document devices colliding with `exDevices`, carrying
different settings. -/
def exDomDevices : List DomEntity :=
  [⟨"Dev1", [("k", .intV 10)]⟩, ⟨"Dev2", [("k", .intV 20)]⟩,
   ⟨"Dev3", [("k", .intV 30)]⟩]

/-- The spec's §8 example project: Port `COM1` and Device `Dev1`
(`portName = COM1`), unmodified. -/
def exProject : Project :=
  { name := "P",
    devices := [⟨1, "Dev1", [("portName", .strV "COM1")]⟩],
    ports := [⟨0, "COM1", [("baud", .intV 9600)]⟩],
    dataViews := [], modified := false }

/-- An incoming document colliding on both `Dev1` and `COM1` and adding a
data view `V1`. -/
def exDom : DomProject :=
  { settings := [("name", .strV "Q")],
    devices := [⟨"Dev1", [("portName", .strV "COM1"), ("unit", .intV 7)]⟩],
    ports := [⟨"COM1", [("baud", .intV 19200)]⟩],
    dataViews := [⟨"V1", []⟩] }

/-- Collaborator answers: Replace for the first collision (the device),
Cancel for the second (the port). -/
def exPromptReplaceThenCancel : Nat → Resolution :=
  fun i => if i = 0 then .replace else .cancel

/-- A UI state whose runtime-running flag is set, with `exProject` open. -/
def exRunningState : UiState :=
  { running := true, project := some exProject, nextId := 50, activeItems := some [] }

/-- An item whose value field holds a non-default value. -/
def exItemWithValue : DataViewItem :=
  { device := "D1", address := 100, length := 4, period := 1000, value := .intV 42 }

/-- A document item node whose settings lack the `value` key (but do carry
a base key). -/
def exDomNoValue : DomDataViewItem := { settings := [("address", .intV 7)] }

/-! ### Helper lemmas about the import-merge engine -/

theorem applyResolution_counters (st : KindSt) (d : DomEntity) (r : Resolution) :
    (applyResolution st d r).promptIdx = st.promptIdx ∧
    (applyResolution st d r).promptCount = st.promptCount ∧
    (applyResolution st d r).cancelled = st.cancelled := by
  cases r <;> simp [applyResolution]

theorem applyResolution_memo_self (st : KindSt) (d : DomEntity) (r : Resolution)
    (h : st.memo = some r) : (applyResolution st d r).memo = some r := by
  cases r <;> simp [applyResolution, h]

theorem importStep_memoSome (prompt : Nat → Resolution) (st : KindSt) (d : DomEntity)
    (r : Resolution) (h : st.memo = some r) (hc : st.cancelled = false) :
    (importStep prompt st d).memo = some r ∧
    (importStep prompt st d).promptCount = st.promptCount ∧
    (importStep prompt st d).promptIdx = st.promptIdx ∧
    (importStep prompt st d).cancelled = false := by
  unfold importStep
  by_cases hn : hasName st.entities d.name <;>
    cases r <;> simp_all [applyResolution]

theorem importSteps_memoSome (prompt : Nat → Resolution) (ds : List DomEntity) :
    ∀ (st : KindSt) (r : Resolution), st.memo = some r → st.cancelled = false →
      (ds.foldl (importStep prompt) st).memo = some r ∧
      (ds.foldl (importStep prompt) st).promptCount = st.promptCount ∧
      (ds.foldl (importStep prompt) st).promptIdx = st.promptIdx ∧
      (ds.foldl (importStep prompt) st).cancelled = false := by
  induction ds with
  | nil => intro st r h hc; exact ⟨h, rfl, rfl, hc⟩
  | cons d ds ih =>
      intro st r h hc
      obtain ⟨h1, h2, h3, h4⟩ := importStep_memoSome prompt st d r h hc
      have hrest := ih (importStep prompt st d) r h1 h4
      refine ⟨hrest.1, ?_, ?_, hrest.2.2.2⟩
      · rw [List.foldl_cons, hrest.2.1, h2]
      · rw [List.foldl_cons, hrest.2.2.1, h3]

theorem importStep_memo_update (prompt : Nat → Resolution) (st : KindSt) (d : DomEntity) :
    (importStep prompt st d).memo = st.memo ∨
    ((importStep prompt st d).memo = some (prompt st.promptIdx) ∧
      (prompt st.promptIdx).isAll = true) := by
  unfold importStep
  by_cases hc : st.cancelled
  · simp [hc]
  · by_cases hn : hasName st.entities d.name
    · simp only [hc, if_false, hn, if_true]
      match hmm : st.memo with
      | some r =>
          left
          cases r <;> simp [applyResolution, hmm]
      | none =>
          cases hr : prompt st.promptIdx <;>
            simp [hr, applyResolution, Resolution.isAll, hmm]
    · simp [hc, hn]

/-- **C1**: during one import, for each entity kind the collision prompt
is consulted only while no All-variant decision is memoized for that
kind: once the memo is set it stays set, no further prompt is consulted
for that kind, and the memo is only ever set to the All variant the
prompt just returned; in the concrete scenario of three colliding devices
answered ReplaceAll on the first, the prompt is consulted exactly once
and all three devices end up replaced (same ids, incoming settings). -/
theorem import_allVariant_memoized :
    (∀ (prompt : Nat → Resolution) (ds : List DomEntity) (st : KindSt) (r : Resolution),
        st.memo = some r → st.cancelled = false →
        (ds.foldl (importStep prompt) st).promptCount = st.promptCount ∧
        (ds.foldl (importStep prompt) st).memo = some r) ∧
    (∀ (prompt : Nat → Resolution) (st : KindSt) (d : DomEntity),
        (importStep prompt st d).memo = st.memo ∨
        ((importStep prompt st d).memo = some (prompt st.promptIdx) ∧
          (prompt st.promptIdx).isAll = true)) ∧
    (importKind (fun _ => .replaceAll) exDomDevices exDevices 100 0).promptCount = 1 ∧
    (importKind (fun _ => .replaceAll) exDomDevices exDevices 100 0).entities =
      [⟨0, "Dev1", [("k", .intV 10)]⟩, ⟨1, "Dev2", [("k", .intV 20)]⟩,
       ⟨2, "Dev3", [("k", .intV 30)]⟩] := by
  refine ⟨?_, importStep_memo_update, by decide, by decide⟩
  intro prompt ds st r h hc
  have hmain := importSteps_memoSome prompt ds st r h hc
  exact ⟨hmain.2.1, hmain.1⟩

/-- Witness for C1: the general memoization conjunct applied at a
concrete state whose memo is already `SkipAll`. -/
theorem import_allVariant_memoized_witness :
    ([(⟨"Dev1", []⟩ : DomEntity)].foldl (importStep (fun _ => .cancel))
        ⟨exDevices, 5, 0, 0, some .skipAll, false⟩).promptCount =
      (⟨exDevices, 5, 0, 0, some .skipAll, false⟩ : KindSt).promptCount ∧
    ([(⟨"Dev1", []⟩ : DomEntity)].foldl (importStep (fun _ => .cancel))
        ⟨exDevices, 5, 0, 0, some .skipAll, false⟩).memo = some .skipAll :=
  import_allVariant_memoized.1 (fun _ => .cancel) [⟨"Dev1", []⟩]
    ⟨exDevices, 5, 0, 0, some .skipAll, false⟩ .skipAll rfl rfl

/-- **C10**: once an All-variant decision is memoized for a kind, the
prompt is never consulted again for that kind, so Cancel cannot occur on
a later collision of that kind and the kind's loop runs to completion;
conversely, a step can only cancel from a collision whose kind still has
no memoized decision, with the prompt answering Cancel. -/
theorem memoized_kind_never_cancels :
    (∀ (prompt : Nat → Resolution) (ds : List DomEntity) (st : KindSt) (r : Resolution),
        st.memo = some r → st.cancelled = false →
        (ds.foldl (importStep prompt) st).cancelled = false) ∧
    (∀ (prompt : Nat → Resolution) (st : KindSt) (d : DomEntity),
        (importStep prompt st d).cancelled = true →
        st.cancelled = true ∨
        (st.memo = none ∧ hasName st.entities d.name = true ∧
          prompt st.promptIdx = .cancel)) := by
  constructor
  · intro prompt ds st r h hc
    exact (importSteps_memoSome prompt ds st r h hc).2.2.2
  · intro prompt st d h
    by_cases hc : st.cancelled
    · exact Or.inl hc
    · right
      by_cases hn : hasName st.entities d.name
      · cases hmm : st.memo with
        | some r =>
            exfalso
            have hcc := (applyResolution_counters st d r).2.2
            simp only [importStep, hc, hn, hmm] at h
            simp_all
        | none =>
            by_cases hr : prompt st.promptIdx = .cancel
            · exact ⟨rfl, hn, hr⟩
            · exfalso
              simp only [importStep, hc, hn, hmm, hr] at h
              have hcc := (applyResolution_counters
                { st with promptIdx := st.promptIdx + 1,
                          promptCount := st.promptCount + 1 } d
                (prompt st.promptIdx)).2.2
              simp_all
      · exfalso
        simp only [importStep, hc, hn] at h
        simp_all

/-- Witness for C10: the never-cancels conjunct applied at a concrete
memoized state. -/
theorem memoized_kind_never_cancels_witness :
    ([(⟨"Dev1", []⟩ : DomEntity)].foldl (importStep (fun _ => .cancel))
        ⟨exDevices, 5, 0, 0, some .renameAll, false⟩).cancelled = false :=
  memoized_kind_never_cancels.1 (fun _ => .cancel) [⟨"Dev1", []⟩]
    ⟨exDevices, 5, 0, 0, some .renameAll, false⟩ .renameAll rfl rfl

theorem importProject_cases (prompt : Nat → Resolution) (pr : Project) (nid : Nat)
    (dom : DomProject) :
    ((importProject prompt pr nid dom).cancelled = true ∧
     (importProject prompt pr nid dom).finalPassRun = false ∧
     (importProject prompt pr nid dom).project.modified = pr.modified) ∨
    ((importProject prompt pr nid dom).cancelled = false ∧
     (importProject prompt pr nid dom).finalPassRun = true ∧
     (importProject prompt pr nid dom).project.modified = true) := by
  simp only [importProject]
  split
  · left; exact ⟨rfl, rfl, rfl⟩
  · split
    · left; exact ⟨rfl, rfl, rfl⟩
    · split
      · left; exact ⟨rfl, rfl, rfl⟩
      · right; exact ⟨rfl, rfl, rfl⟩

/-- **C2**: a Cancel returned by the collision prompt aborts the import
immediately: a cancelled state absorbs every further step of its kind;
when the device stage cancels, the port and data-view collections are
not touched at all while the device stage's already-applied work is
kept; no final pass runs and the modified flag is untouched; and in the
spec's §8 scenario (device Replace applied, Cancel at the port stage)
the replaced device remains replaced while ports and data views are
untouched. -/
theorem import_cancel_aborts_best_effort :
    (∀ (prompt : Nat → Resolution) (st : KindSt) (d : DomEntity),
        st.cancelled = true → importStep prompt st d = st) ∧
    (∀ (prompt : Nat → Resolution) (pr : Project) (nid : Nat) (dom : DomProject),
        (importProject prompt pr nid dom).cancelled = true →
        (importProject prompt pr nid dom).finalPassRun = false ∧
        (importProject prompt pr nid dom).project.modified = pr.modified) ∧
    (∀ (prompt : Nat → Resolution) (pr : Project) (nid : Nat) (dom : DomProject),
        (importKind prompt dom.devices pr.devices nid 0).cancelled = true →
        (importProject prompt pr nid dom).project.ports = pr.ports ∧
        (importProject prompt pr nid dom).project.dataViews = pr.dataViews ∧
        (importProject prompt pr nid dom).project.devices =
          (importKind prompt dom.devices pr.devices nid 0).entities) ∧
    ((importProject exPromptReplaceThenCancel exProject 10 exDom).project.devices =
        [⟨1, "Dev1", [("portName", .strV "COM1"), ("unit", .intV 7)]⟩] ∧
     (importProject exPromptReplaceThenCancel exProject 10 exDom).project.ports =
        exProject.ports ∧
     (importProject exPromptReplaceThenCancel exProject 10 exDom).project.dataViews = [] ∧
     (importProject exPromptReplaceThenCancel exProject 10 exDom).cancelled = true) := by
  refine ⟨?_, ?_, ?_, by decide, by decide, by decide, by decide⟩
  · intro prompt st d h
    unfold importStep
    simp [h]
  · intro prompt pr nid dom h
    rcases importProject_cases prompt pr nid dom with hc | hc
    · exact ⟨hc.2.1, hc.2.2⟩
    · rw [hc.1] at h; exact absurd h (by simp)
  · intro prompt pr nid dom h
    simp only [importProject, h]
    exact ⟨rfl, rfl, rfl⟩

/-- Witness for C2: the cancelled-import conjunct applied at the §8
scenario. -/
theorem import_cancel_aborts_best_effort_witness :
    (importProject exPromptReplaceThenCancel exProject 10 exDom).finalPassRun = false ∧
    (importProject exPromptReplaceThenCancel exProject 10 exDom).project.modified =
      exProject.modified :=
  import_cancel_aborts_best_effort.2.1 exPromptReplaceThenCancel exProject 10 exDom
    (by decide)

/-- Counterexample to C5 as stated: in the §8 scenario a device Replace
is applied and then Cancel aborts at the port stage; a change did occur
during the import, yet the Project's modified flag is not set and the
final `importDomProject` pass does not run — both are skipped by the
early `return` on Cancel. -/
theorem import_modified_after_cancel_counterexample :
    (importProject exPromptReplaceThenCancel exProject 10 exDom).project.devices ≠
      exProject.devices ∧
    (importProject exPromptReplaceThenCancel exProject 10 exDom).cancelled = true ∧
    (importProject exPromptReplaceThenCancel exProject 10 exDom).project.modified = false ∧
    (importProject exPromptReplaceThenCancel exProject 10 exDom).finalPassRun = false :=
  ⟨by decide, by decide, by decide, by decide⟩

/-- **C5** (amended): the final `importDomProject` family pass runs and
the Project's modified flag is set (unconditionally) exactly when
the import runs to completion without Cancel; when Cancel aborts the import,
neither happens — the modified flag keeps its previous value even if
changes were already applied. -/
theorem import_final_pass_and_modified :
    ∀ (prompt : Nat → Resolution) (pr : Project) (nid : Nat) (dom : DomProject),
      ((importProject prompt pr nid dom).cancelled = false →
        (importProject prompt pr nid dom).finalPassRun = true ∧
        (importProject prompt pr nid dom).project.modified = true) ∧
      ((importProject prompt pr nid dom).cancelled = true →
        (importProject prompt pr nid dom).finalPassRun = false ∧
        (importProject prompt pr nid dom).project.modified = pr.modified) := by
  intro prompt pr nid dom
  rcases importProject_cases prompt pr nid dom with hc | hc
  · exact ⟨fun h => absurd h (by simp [hc.1]), fun _ => ⟨hc.2.1, hc.2.2⟩⟩
  · exact ⟨fun _ => ⟨hc.2.1, hc.2.2⟩, fun h => absurd h (by simp [hc.1])⟩

/-- Witness for C5's amended theorem: a completed import (every prompt
answers ReplaceAll, no Cancel) runs the final pass and sets the flag. -/
theorem import_final_pass_and_modified_witness :
    (importProject (fun _ => .replaceAll) exProject 10 exDom).cancelled = false ∧
    (importProject (fun _ => .replaceAll) exProject 10 exDom).finalPassRun = true ∧
    (importProject (fun _ => .replaceAll) exProject 10 exDom).project.modified = true := by
  have h := (import_final_pass_and_modified (fun _ => .replaceAll) exProject 10 exDom).1
    (by decide)
  exact ⟨by decide, h.1, h.2⟩

theorem importStep_replace_entities (prompt : Nat → Resolution) (st : KindSt)
    (d : DomEntity) (hc : st.cancelled = false)
    (hn : hasName st.entities d.name = true)
    (hr : effectiveResolution prompt st = .replace ∨
          effectiveResolution prompt st = .replaceAll) :
    (importStep prompt st d).entities = replaceExisting st.entities d := by
  unfold effectiveResolution at hr
  cases hmm : st.memo with
  | some r =>
      rw [hmm] at hr
      simp only [importStep, hc, hn, hmm, Bool.false_eq_true, if_false, if_true]
      rcases hr with rfl | rfl <;> simp [applyResolution]
  | none =>
      have hp : prompt st.promptIdx = .replace ∨ prompt st.promptIdx = .replaceAll := by
        rw [hmm] at hr; exact hr
      have hnc : prompt st.promptIdx ≠ .cancel := by
        rcases hp with h | h <;> simp [h]
      simp only [importStep, hc, hn, hmm, Bool.false_eq_true, if_false, if_true, hnc]
      rcases hp with h | h <;> simp [h, applyResolution]

/-- **C4**: merge-Replace is content-only: when a colliding entity is
resolved as Replace or ReplaceAll, the entity list keeps its length (no
insertion), every position keeps its object identity (`id`) and its
name, the colliding entity's content is overwritten from the document
node, and every other entity is completely untouched. -/
theorem merge_replace_content_only :
    ∀ (prompt : Nat → Resolution) (st : KindSt) (d : DomEntity),
      st.cancelled = false → hasName st.entities d.name = true →
      (effectiveResolution prompt st = .replace ∨
       effectiveResolution prompt st = .replaceAll) →
      (importStep prompt st d).entities.length = st.entities.length ∧
      (∀ i : Nat, ((importStep prompt st d).entities[i]?).map Entity.id =
          (st.entities[i]?).map Entity.id) ∧
      (∀ i : Nat, ((importStep prompt st d).entities[i]?).map Entity.name =
          (st.entities[i]?).map Entity.name) ∧
      (∀ (i : Nat) (e : Entity), st.entities[i]? = some e → e.name = d.name →
          (importStep prompt st d).entities[i]? = some (fillEntity e d)) ∧
      (∀ (i : Nat) (e : Entity), st.entities[i]? = some e → e.name ≠ d.name →
          (importStep prompt st d).entities[i]? = some e) := by
  intro prompt st d hc hn hr
  rw [importStep_replace_entities prompt st d hc hn hr]
  unfold replaceExisting
  refine ⟨List.length_map .., ?_, ?_, ?_, ?_⟩
  · intro i
    rw [List.getElem?_map]
    cases st.entities[i]? with
    | none => rfl
    | some e =>
        simp only [Option.map_some']
        congr 1
        split <;> rfl
  · intro i
    rw [List.getElem?_map]
    cases st.entities[i]? with
    | none => rfl
    | some e =>
        simp only [Option.map_some']
        congr 1
        split
        case isTrue h => simp [fillEntity, h]
        case isFalse => rfl
  · intro i e he hname
    rw [List.getElem?_map, he]
    simp [hname]
  · intro i e he hname
    rw [List.getElem?_map, he]
    simp [hname]

/-- Witness for C4: Replace of the colliding `Dev2` keeps the list
length and the identity at position 1, and overwrites that entity's
content. -/
theorem merge_replace_content_only_witness :
    (importStep (fun _ => .replace)
        ⟨exDevices, 100, 0, 0, none, false⟩ ⟨"Dev2", [("k", .intV 20)]⟩).entities.length
      = exDevices.length ∧
    ((importStep (fun _ => .replace)
        ⟨exDevices, 100, 0, 0, none, false⟩ ⟨"Dev2", [("k", .intV 20)]⟩).entities[1]?).map
        Entity.id = (exDevices[1]?).map Entity.id ∧
    (importStep (fun _ => .replace)
        ⟨exDevices, 100, 0, 0, none, false⟩ ⟨"Dev2", [("k", .intV 20)]⟩).entities[1]? =
      some (fillEntity ⟨1, "Dev2", [("k", .intV 2)]⟩ ⟨"Dev2", [("k", .intV 20)]⟩) := by
  have h := merge_replace_content_only (fun _ => .replace)
    ⟨exDevices, 100, 0, 0, none, false⟩ ⟨"Dev2", [("k", .intV 20)]⟩
    rfl (by decide) (Or.inl rfl)
  exact ⟨h.1, h.2.1 1, h.2.2.2.1 1 ⟨1, "Dev2", [("k", .intV 2)]⟩ (by decide) rfl⟩

theorem maxNameLen_cons (e : Entity) (es : List Entity) :
    maxNameLen (e :: es) = max e.name.length (maxNameLen es) := rfl

theorem mem_namesOf_length_le (es : List Entity) (s : String) (h : s ∈ namesOf es) :
    s.length ≤ maxNameLen es := by
  induction es with
  | nil => simp [namesOf] at h
  | cons e es ih =>
      rw [maxNameLen_cons]
      rcases (by simpa [namesOf] using h : s = e.name ∨ s ∈ namesOf es) with h1 | h1
      · subst h1; exact le_max_left _ _
      · exact le_trans (ih h1) (le_max_right _ _)

theorem freeName_length (es : List Entity) (base : String)
    (h : base.length ≤ maxNameLen es) :
    (freeName es base).length = maxNameLen es + 1 := by
  unfold freeName
  rw [String.length_append]
  have hmk : (String.mk (List.replicate (maxNameLen es + 1 - base.length) '_')).length
      = maxNameLen es + 1 - base.length := by
    show (List.replicate (maxNameLen es + 1 - base.length) '_').length = _
    exact List.length_replicate _ _
  rw [hmk]
  omega

theorem freeName_not_mem (es : List Entity) (base : String)
    (h : base.length ≤ maxNameLen es) : freeName es base ∉ namesOf es := by
  intro hmem
  have h1 := mem_namesOf_length_le es _ hmem
  rw [freeName_length es base h] at h1
  omega

theorem hasName_iff (es : List Entity) (n : String) :
    hasName es n = true ↔ n ∈ namesOf es := by
  simp [hasName, namesOf, List.any_eq_true, List.mem_map]

theorem namesOf_append (es1 es2 : List Entity) :
    namesOf (es1 ++ es2) = namesOf es1 ++ namesOf es2 :=
  List.map_append ..

theorem entityAdd_uniqueNames (es : List Entity) (e : Entity)
    (h : uniqueNames es) : uniqueNames (entityAdd es e) := by
  unfold entityAdd uniqueNames
  split
  case isTrue hcond =>
      rw [namesOf_append, List.nodup_append]
      refine ⟨h, List.nodup_singleton _, ?_⟩
      intro a ha hb
      have hb' : a = freeName es e.name := by simpa [namesOf] using hb
      subst hb'
      have hlen : e.name.length ≤ maxNameLen es := by
        rcases (by simpa using hcond : e.name = "" ∨ hasName es e.name = true) with h0 | h0
        · simp [h0]
        · exact mem_namesOf_length_le es _ ((hasName_iff es e.name).mp h0)
      exact freeName_not_mem es e.name hlen ha
  case isFalse hcond =>
      rw [namesOf_append, List.nodup_append]
      refine ⟨h, List.nodup_singleton _, ?_⟩
      intro a ha hb
      have hb' : a = e.name := by simpa [namesOf] using hb
      subst hb'
      have : hasName es e.name = true := (hasName_iff es e.name).mpr ha
      simp [this] at hcond

theorem namesOf_replaceExisting (es : List Entity) (d : DomEntity) :
    namesOf (replaceExisting es d) = namesOf es := by
  unfold namesOf replaceExisting
  rw [List.map_map]
  apply List.map_congr_left
  intro e _
  simp only [Function.comp]
  split
  case isTrue h => simp [fillEntity, h]
  case isFalse => rfl

theorem applyResolution_uniqueNames (st : KindSt) (d : DomEntity) (r : Resolution)
    (h : uniqueNames st.entities) : uniqueNames (applyResolution st d r).entities := by
  cases r <;> simp only [applyResolution] <;>
    first
      | exact h
      | (unfold uniqueNames; rw [namesOf_replaceExisting]; exact h)
      | exact entityAdd_uniqueNames _ _ h

theorem importStep_uniqueNames (prompt : Nat → Resolution) (st : KindSt) (d : DomEntity)
    (h : uniqueNames st.entities) : uniqueNames (importStep prompt st d).entities := by
  unfold importStep
  by_cases hc : st.cancelled
  · simpa [hc] using h
  · by_cases hn : hasName st.entities d.name
    · simp only [hc, hn, Bool.false_eq_true, if_false, if_true]
      cases hmm : st.memo with
      | none =>
          by_cases hr : prompt st.promptIdx = .cancel
          · simpa [hr] using h
          · simp only [hr, if_false]
            exact applyResolution_uniqueNames _ d _ h
      | some r => exact applyResolution_uniqueNames _ d _ h
    · simp only [hc, hn, Bool.false_eq_true, if_false]
      exact entityAdd_uniqueNames _ _ h

theorem importSteps_uniqueNames (prompt : Nat → Resolution) (ds : List DomEntity) :
    ∀ st : KindSt, uniqueNames st.entities →
      uniqueNames (ds.foldl (importStep prompt) st).entities := by
  induction ds with
  | nil => intro st h; exact h
  | cons d ds ih =>
      intro st h
      exact ih _ (importStep_uniqueNames prompt st d h)

theorem importKind_uniqueNames (prompt : Nat → Resolution) (ds : List DomEntity)
    (es : List Entity) (nid pidx : Nat) (h : uniqueNames es) :
    uniqueNames (importKind prompt ds es nid pidx).entities :=
  importSteps_uniqueNames prompt ds _ h

/-- **C3**: name uniqueness is an invariant: the (spec-modelled) add
operation preserves it, and a whole import — whatever the collaborator
answers, in particular Rename/RenameAll outcomes that materialize the
incoming entity alongside the kept one — preserves it for all three
entity kinds. -/
theorem project_names_unique :
    (∀ (es : List Entity) (e : Entity), uniqueNames es → uniqueNames (entityAdd es e)) ∧
    (∀ (prompt : Nat → Resolution) (pr : Project) (nid : Nat) (dom : DomProject),
        uniqueNames pr.devices → uniqueNames pr.ports → uniqueNames pr.dataViews →
        uniqueNames (importProject prompt pr nid dom).project.devices ∧
        uniqueNames (importProject prompt pr nid dom).project.ports ∧
        uniqueNames (importProject prompt pr nid dom).project.dataViews) ∧
    uniqueNames (importKind (fun _ => .renameAll) exDomDevices exDevices 100 0).entities := by
  refine ⟨entityAdd_uniqueNames, ?_, by decide⟩
  intro prompt pr nid dom h1 h2 h3
  have hd := importKind_uniqueNames prompt dom.devices pr.devices nid 0 h1
  simp only [importProject]
  split
  · exact ⟨hd, h2, h3⟩
  · have hp := importKind_uniqueNames prompt dom.ports pr.ports
      (importKind prompt dom.devices pr.devices nid 0).nextId
      (importKind prompt dom.devices pr.devices nid 0).promptIdx h2
    split
    · exact ⟨hd, hp, h3⟩
    · have hv := importKind_uniqueNames prompt dom.dataViews pr.dataViews
        (importKind prompt dom.ports pr.ports
          (importKind prompt dom.devices pr.devices nid 0).nextId
          (importKind prompt dom.devices pr.devices nid 0).promptIdx).nextId
        (importKind prompt dom.ports pr.ports
          (importKind prompt dom.devices pr.devices nid 0).nextId
          (importKind prompt dom.devices pr.devices nid 0).promptIdx).promptIdx h3
      split
      · exact ⟨hd, hp, hv⟩
      · exact ⟨hd, hp, hv⟩

/-- Witness for C3: uniqueness of all three kinds after the §8 import
scenario, from unique initial collections. -/
theorem project_names_unique_witness :
    uniqueNames (importProject exPromptReplaceThenCancel exProject 10 exDom).project.devices ∧
    uniqueNames (importProject exPromptReplaceThenCancel exProject 10 exDom).project.ports ∧
    uniqueNames (importProject exPromptReplaceThenCancel exProject 10 exDom).project.dataViews :=
  project_names_unique.2.1 exPromptReplaceThenCancel exProject 10 exDom
    (by decide) (by decide) (by decide)

theorem entityAdd_length (es : List Entity) (e : Entity) :
    (entityAdd es e).length = es.length + 1 := by
  unfold entityAdd
  split <;> simp

/-- Counterexample to C6 as stated: with the runtime-running flag set,
the data-view insert entry point (`menuSlotDataViewInsert`, which has no
`isRunning` guard) still mutates the Domain Model: a data view is added
and the modified flag set. -/
theorem dataView_mutation_while_running_counterexample :
    exRunningState.running = true ∧
    (menuSlotDataViewInsert exRunningState).project ≠ exRunningState.project ∧
    (menuSlotDataViewInsert exRunningState).project.map Project.modified = some true :=
  ⟨rfl, by decide, by decide⟩

/-- **C6** (amended): the file-level and port-import structural entry
points (file new/open/close/edit/import project, port import) are
silent no-ops while the runtime-running flag is set, but the DataView
and DataViewItem entry points (data-view new/insert/delete/import,
item new/insert/delete/import-items) do not consult the flag: with an
open project (and, for item slots, an active data view) they mutate the
Domain Model regardless of the flag — the mutation conjuncts below hold
for every state, running included. -/
theorem running_guard_entry_points :
    (∀ (st : UiState) (d : Option String),
        st.running = true → menuSlotFileNew st d = st) ∧
    (∀ (st : UiState) (file : Option String) (loaded : Option Project),
        st.running = true → menuSlotFileOpen st file loaded = st) ∧
    (∀ (st : UiState) (b : Bool),
        st.running = true → menuSlotFileClose st b = st) ∧
    (∀ (st : UiState) (d : Option String),
        st.running = true → menuSlotFileEdit st d = st) ∧
    (∀ (st : UiState) (l : Option DomProject) (prompt : Nat → Resolution),
        st.running = true → menuSlotFileImportProject st l prompt = (st, none)) ∧
    (∀ (st : UiState) (l : Option DomEntity),
        st.running = true → menuSlotPortImport st l = st) ∧
    (∀ (st : UiState) (pr : Project) (s : MBSETTINGS), st.project = some pr →
        (menuSlotDataViewNew st (some s)).project.map (fun p => p.dataViews.length) =
          some (pr.dataViews.length + 1) ∧
        (menuSlotDataViewNew st (some s)).project.map Project.modified = some true) ∧
    (∀ (st : UiState) (pr : Project), st.project = some pr →
        (menuSlotDataViewInsert st).project.map (fun p => p.dataViews.length) =
          some (pr.dataViews.length + 1) ∧
        (menuSlotDataViewInsert st).project.map Project.modified = some true) ∧
    (∀ (st : UiState) (pr : Project) (d : Entity), st.project = some pr →
        (menuSlotDataViewDelete st (some d)).project =
          some { pr with dataViews := pr.dataViews.filter (fun e => e.id ≠ d.id),
                         modified := true }) ∧
    (∀ (st : UiState) (pr : Project) (dn : DomEntity), st.project = some pr →
        (menuSlotDataViewImport st (some dn)).project.map (fun p => p.dataViews.length) =
          some (pr.dataViews.length + 1) ∧
        (menuSlotDataViewImport st (some dn)).project.map Project.modified = some true) ∧
    (∀ (st : UiState) (pr : Project) (items : List DataViewItem)
        (p : ItemSettings) (c : Nat),
        st.project = some pr → st.activeItems = some items → 0 < c →
        (menuSlotDataViewItemNew st (some (p, c))).activeItems =
          some (items ++ (createItemsLoop c p []).1) ∧
        (menuSlotDataViewItemNew st (some (p, c))).project.map Project.modified =
          some true) ∧
    (∀ (st : UiState) (pr : Project) (items : List DataViewItem) (idx : Nat),
        st.project = some pr → st.activeItems = some items →
        (menuSlotDataViewItemInsert st idx).activeItems.map List.length =
          some (items.length + 1) ∧
        (menuSlotDataViewItemInsert st idx).project.map Project.modified = some true) ∧
    (∀ (st : UiState) (pr : Project) (items sel : List DataViewItem),
        st.project = some pr → st.activeItems = some items → sel.isEmpty = false →
        (menuSlotDataViewItemDelete st sel).project.map Project.modified = some true) ∧
    (∀ (st : UiState) (pr : Project) (items ld : List DataViewItem) (idx : Nat),
        st.project = some pr → st.activeItems = some items → ld.isEmpty = false →
        (menuSlotDataViewImportItems st ld idx).activeItems.map List.length =
          some (items.length + ld.length) ∧
        (menuSlotDataViewImportItems st ld idx).project.map Project.modified =
          some true) := by
  refine ⟨?_, ?_, ?_, ?_, ?_, ?_, ?_, ?_, ?_, ?_, ?_, ?_, ?_, ?_⟩
  · intro st d h; simp [menuSlotFileNew, h]
  · intro st file loaded h; simp [menuSlotFileOpen, h]
  · intro st b h; simp [menuSlotFileClose, h]
  · intro st d h; simp [menuSlotFileEdit, h]
  · intro st l prompt h; simp [menuSlotFileImportProject, h]
  · intro st l h; simp [menuSlotPortImport, h]
  · intro st pr s hpr
    simp [menuSlotDataViewNew, hpr, entityAdd_length]
  · intro st pr hpr
    simp [menuSlotDataViewInsert, hpr, entityAdd_length]
  · intro st pr d hpr
    simp [menuSlotDataViewDelete, hpr]
  · intro st pr dn hpr
    simp [menuSlotDataViewImport, hpr, entityAdd_length]
  · intro st pr items p c hpr hit hc
    simp [menuSlotDataViewItemNew, hpr, hit, hc]
  · intro st pr items idx hpr hit
    constructor
    · simp only [menuSlotDataViewItemInsert, hpr, hit, Option.map_some']
      have hk : min idx items.length ≤ items.length := Nat.min_le_right idx items.length
      simp [List.length_append, List.length_take, List.length_drop]
      omega
    · simp [menuSlotDataViewItemInsert, hpr, hit]
  · intro st pr items sel hpr hit hsel
    simp [menuSlotDataViewItemDelete, hpr, hit, hsel]
  · intro st pr items ld idx hpr hit hld
    constructor
    · simp only [menuSlotDataViewImportItems, hpr, hit, hld, Bool.false_eq_true,
        if_false, Option.map_some']
      have hk : min idx items.length ≤ items.length := Nat.min_le_right idx items.length
      simp [List.length_append, List.length_take, List.length_drop]
      omega
    · simp [menuSlotDataViewImportItems, hpr, hit, hld]

/-- Witness for C6's amended theorem: the guard applied at a running
state, and the unguarded data-view insert mutating that same running
state. -/
theorem running_guard_entry_points_witness :
    menuSlotFileNew exRunningState (some "Q") = exRunningState ∧
    (menuSlotDataViewInsert exRunningState).project.map (fun p => p.dataViews.length) =
      some (exProject.dataViews.length + 1) := by
  obtain ⟨h1, _, _, _, _, _, _, h8, _⟩ := running_guard_entry_points
  exact ⟨h1 exRunningState (some "Q") rfl, (h8 exRunningState exProject rfl).1⟩

theorem editItemsLoop_length (p : ItemSettings) (items : List DataViewItem) :
    (editItemsLoop p items).1.length = items.length := by
  induction items generalizing p with
  | nil => rfl
  | cons it rest ih => simp [editItemsLoop, ih]

theorem editItemsLoop_adjacent (p : ItemSettings) (items : List DataViewItem) :
    ∀ i : Nat, i + 1 < items.length →
      ((editItemsLoop p items).1[i+1]?).map DataViewItem.address =
      ((editItemsLoop p items).1[i]?).map (fun it => it.address + it.length) := by
  induction items generalizing p with
  | nil => intro i h; simp at h
  | cons it rest ih =>
      intro i h
      match i with
      | 0 =>
          match rest with
          | [] => simp at h
          | r :: rs =>
              simp [editItemsLoop, applyItemSettings]
      | Nat.succ j =>
          have hj : j + 1 < rest.length := by simpa using h
          simpa [editItemsLoop] using
            ih { p with address := (applyItemSettings it p).address +
                   (applyItemSettings it p).length } j hj

theorem createItemsLoop_eq_edit (n : Nat) :
    ∀ (p : ItemSettings) (acc : List DataViewItem),
      createItemsLoop n p acc =
        (acc ++ (editItemsLoop p (List.replicate n newDataViewItem)).1,
         (editItemsLoop p (List.replicate n newDataViewItem)).2) := by
  induction n with
  | zero => intro p acc; simp [createItemsLoop, editItemsLoop]
  | succ n ih =>
      intro p acc
      rw [createItemsLoop, ih, List.replicate_succ, editItemsLoop]
      simp

/-- **C7**: batch item creation and editing auto-increment the offered
address: within a batch, the address of item `i+1` equals
`address(i) + length(i)` of item `i` recomputed after item `i`'s settings
were applied (so an override of an earlier item's address or length
shifts every later default accordingly); concretely, with
(address = 100, length = 4) the second item gets 104 and the batch's
next offered address is 108. -/
theorem dataViewItem_address_auto_increment :
    (∀ (p : ItemSettings) (items : List DataViewItem) (i : Nat),
        i + 1 < items.length →
        ((editItemsLoop p items).1[i+1]?).map DataViewItem.address =
        ((editItemsLoop p items).1[i]?).map (fun it => it.address + it.length)) ∧
    (∀ (n : Nat) (p : ItemSettings) (i : Nat), i + 1 < n →
        ((createItemsLoop n p []).1[i+1]?).map DataViewItem.address =
        ((createItemsLoop n p []).1[i]?).map (fun it => it.address + it.length)) ∧
    (createItemsLoop 2 ⟨100, 4⟩ []).1.map DataViewItem.address = [100, 104] ∧
    (createItemsLoop 2 ⟨100, 4⟩ []).2.address = 108 := by
  refine ⟨editItemsLoop_adjacent, ?_, by decide, by decide⟩
  intro n p i h
  rw [createItemsLoop_eq_edit n p []]
  simp only [List.nil_append]
  exact editItemsLoop_adjacent p (List.replicate n newDataViewItem) i
    (by simpa using h)

/-- Witness for C7: the creation-loop conjunct at a concrete batch of
three items starting at address 100 with length 4. -/
theorem dataViewItem_address_auto_increment_witness :
    ((createItemsLoop 3 ⟨100, 4⟩ []).1[2]?).map DataViewItem.address =
    ((createItemsLoop 3 ⟨100, 4⟩ []).1[1]?).map (fun it => it.address + it.length) :=
  dataViewItem_address_auto_increment.2.1 3 ⟨100, 4⟩ 1 (by decide)

theorem toEntities_entityFields (ds : List DomEntity) :
    ∀ nid : Nat, (toEntities nid ds).map entityFields =
      ds.map (fun d => (d.name, d.settings)) := by
  induction ds with
  | nil => intro nid; rfl
  | cons d rest ih => intro nid; simp [toEntities, entityFields, toEntity, ih]

/-- **C8**: round trip for every Domain entity kind of the active
(client) family: writing the entity into a fresh document node
(`fillDomX` after `newDomX`) and reading it back into a fresh entity
(`fillX` after `newX`) reproduces every recognized field.  The client
DataViewItem round-trips on all of its fields including the `value`
extension; Ports, Devices and DataViews (embedded uniformly as
`Entity`) round-trip on their name and settings content; and a Project
— mapped through the client `fillProject`, which rewires port→device
attachments after the base fill — round-trips on its name and all three
child collections (object identities and the unpersisted modified flag
are not fields). -/
theorem client_family_round_trip :
    (∀ E : DataViewItem,
        fillDataViewItem newDataViewItem (fillDomDataViewItem newDomDataViewItem E) = E) ∧
    (∀ (nid : Nat) (E : Entity),
        entityFields (fillEntity (newEntity nid) (fillDomEntity newDomEntity E)) =
          entityFields E) ∧
    (∀ (nid : Nat) (E : Project),
        projectFields
            (clientFillProject newClientProject (fillDomProject newDomProject E) nid).core =
          projectFields E) := by
  refine ⟨?_, ?_, ?_⟩
  · intro E; cases E; rfl
  · intro nid E; rfl
  · intro nid E
    simp only [clientFillProject, coreFillProject, fillDomProject, newDomProject,
      newClientProject, newProject, projectFields]
    rw [toEntities_entityFields, toEntities_entityFields, toEntities_entityFields]
    simp [List.map_map, entityFields, MBSETTINGS.insertKey, MBSETTINGS.value,
      MBVariant.toStr]

theorem value_of_not_containsKey (s : MBSETTINGS) (k : String)
    (h : s.containsKey k = false) : s.value k = .nullV := by
  unfold MBSETTINGS.containsKey at h
  unfold MBSETTINGS.value
  cases hf : s.find? (fun p => p.1 = k) with
  | none => rfl
  | some q => rw [hf] at h; simp at h

/-- Counterexample to C9 as stated: filling an item whose value field
holds 42 from a node whose settings lack the `value` key does not leave
the value field unchanged — the client Builder unconditionally calls
`setValue` with the map's null default, resetting the field to the null
variant (while base keys transcribe normally). -/
theorem fill_absent_value_counterexample :
    exDomNoValue.settings.containsKey "value" = false ∧
    (fillDataViewItem exItemWithValue exDomNoValue).value ≠ exItemWithValue.value ∧
    (fillDataViewItem exItemWithValue exDomNoValue).value = .nullV ∧
    (fillDataViewItem exItemWithValue exDomNoValue).address = 7 :=
  ⟨by decide, by decide, by decide, by decide⟩

/-- **C9** (amended): base settings keys absent from the node leave the
corresponding fields untouched (the guarded per-key setters skip them,
and the base transcription never touches the value field); the client's
`value` key, however, is transcribed unconditionally: when it is absent
the value field becomes the null variant — i.e. it is left unchanged
only when it already held the null default.  No transcription throws. -/
theorem fill_absent_keys_frame :
    (∀ (item : DataViewItem) (s : MBSETTINGS),
        (s.containsKey "device" = false → (item.setSettings s).device = item.device) ∧
        (s.containsKey "address" = false → (item.setSettings s).address = item.address) ∧
        (s.containsKey "length" = false → (item.setSettings s).length = item.length) ∧
        (s.containsKey "period" = false → (item.setSettings s).period = item.period) ∧
        (item.setSettings s).value = item.value) ∧
    (∀ (item : DataViewItem) (dom : DomDataViewItem),
        dom.settings.containsKey "value" = false →
        (fillDataViewItem item dom).value = .nullV) := by
  constructor
  · intro item s
    refine ⟨fun h => ?_, fun h => ?_, fun h => ?_, fun h => ?_, rfl⟩ <;>
      simp [DataViewItem.setSettings, h]
  · intro item dom h
    show dom.settings.value "value" = .nullV
    exact value_of_not_containsKey dom.settings "value" h

/-- Witness for C9's amended theorem: an absent base key leaves the
device field unchanged, and an absent `value` key yields the null
variant, at concrete inputs. -/
theorem fill_absent_keys_frame_witness :
    (exItemWithValue.setSettings exDomNoValue.settings).device = exItemWithValue.device ∧
    (fillDataViewItem exItemWithValue exDomNoValue).value = .nullV :=
  ⟨(fill_absent_keys_frame.1 exItemWithValue exDomNoValue.settings).1 (by decide),
   fill_absent_keys_frame.2 exItemWithValue exDomNoValue (by decide)⟩
